import Mathlib

/-!
# xtensor-python, `include/xtensor-python/pyarray.hpp`

A shallow embedding of `pyarray<T>` and `pyarray_backstrides<A>`.

* `size_type` is `std::size_t`, an unsigned integer of `w` bits.  Values are
  natural numbers and every arithmetic step of the source on `size_type`
  is reduced modulo `2 ^ w` explicitly.
* A `PyObject*` is `Option (PyArrayObject α)`: `none` is the null pointer, and a
  non-null pointer is identified with the array description it points at.
* A raw pointer into foreign memory (`PyArray_SHAPE`, `PyArray_STRIDES`,
  `PyArray_DATA`) is the sequence of cells found at that address.  The source
  reads the `npy_intp` cells through `reinterpret_cast<size_type*>`, so a cell
  is its `w`-bit pattern read as an unsigned number.
* `pyarray_backstrides` keeps a pointer to a container, so containers live in a
  `Store` indexed by address and methods receive the address `self` of `*this`.
-/

namespace xt

/-! ## Element type and foreign array description -/

/-- Facts about the template parameter `T` of `pyarray<T>` that the header
consults: `sizeof(T)`, `std::is_const<T>::value` and
`detail::numpy_traits<T>::type_num`. -/
structure ElemType where
  sizeof : Nat
  is_const : Bool
  type_num : Int
  sizeof_pos : 0 < sizeof

/-- What the NumPy accessors return for a live array object:
`PyArray_NDIM`, the cells behind `PyArray_SHAPE` and `PyArray_STRIDES` (byte
strides), the cells behind `PyArray_DATA`, and `PyArray_SIZE`. -/
structure PyArrayObject (α : Type) where
  nd : Nat
  dimensions : List Nat
  strides : List Nat
  data : List α
  size : Nat

/-- Failures of the procedures: a C++ exception `std::runtime_error(what)`, or
the dereference of a null `m_ptr` inside `python_array()`. -/
inductive Fault where
  | runtime_error (what : String)
  | null_handle
  deriving DecidableEq, Repr

/-! ## Adaptors (`pybuffer_adaptor.hpp`) -/

/-- Modelled from the spec: `pybuffer_adaptor<T>` of `pybuffer_adaptor.hpp`,
which is not among the sources.  Spec 4.1: `Construct(pointer, count)` stores
pointer and count. -/
structure pybuffer_adaptor (α : Type) where
  p_data : List α
  m_size : Nat

/-- Modelled from the spec: `pybuffer_adaptor<T>::operator[]`.  Spec 4.1:
element access by flat index in `[0, count)`; an index outside the range is a
precondition violation (`none`). -/
def pybuffer_adaptor.get {α : Type} (a : pybuffer_adaptor α) (i : Nat) : Option α :=
  if i < a.m_size then a.p_data[i]? else none

/-- Modelled from the spec: `pystrides_adaptor<N>` of `pybuffer_adaptor.hpp`.
Spec 4.2: `Construct(byte_stride_pointer, rank)` stores pointer and rank; the
element size `N` is a compile-time constant. -/
structure pystrides_adaptor where
  p_data : List Nat
  m_size : Nat

/-- Modelled from the spec: `pystrides_adaptor<N>::operator[]`.  Spec 4.2:
for `i` in `[0, rank)` returns `byte_stride[i] / element_size`; no check is
made inside the adaptor. -/
def pystrides_adaptor.get (N : Nat) (a : pystrides_adaptor) (i : Nat) : Option Nat :=
  if i < a.m_size then (a.p_data[i]?).map (fun v => v / N) else none

/-! ## The container -/

/-- The class `pyarray_backstrides<A>`: its only member is `const array_type* p_a`. -/
structure pyarray_backstrides where
  p_a : Option Nat

/-- The class `pyarray<T>`: the handle `m_ptr` inherited from `pybind11::object`
and the four private members. -/
structure pyarray (α : Type) where
  m_ptr : Option (PyArrayObject α)
  m_shape : pybuffer_adaptor Nat
  m_strides : pystrides_adaptor
  m_backstrides : pyarray_backstrides
  m_data : pybuffer_adaptor α

/-- Memory holding containers: the container found at each address. -/
abbrev Store (α : Type) := Nat → Option (pyarray α)

/-- Writing a container at an address. -/
def Store.set {α : Type} (σ : Store α) (a : Nat) (c : pyarray α) : Store α :=
  fun b => if b = a then some c else σ b

/-- The member `pyarray<T>::shape_impl`: returns `m_shape`. -/
def pyarray.shape_impl {α : Type} (c : pyarray α) : pybuffer_adaptor Nat := c.m_shape

/-- The member `pyarray<T>::strides_impl`: returns `m_strides`. -/
def pyarray.strides_impl {α : Type} (c : pyarray α) : pystrides_adaptor := c.m_strides

/-- The member `pyarray<T>::data_impl`: returns `m_data`. -/
def pyarray.data_impl {α : Type} (c : pyarray α) : pybuffer_adaptor α := c.m_data

/-- The accessor `shape()` of the `xcontainer` base: forwards to `shape_impl`. -/
def pyarray.shape {α : Type} (c : pyarray α) : pybuffer_adaptor Nat := c.shape_impl

/-- The accessor `strides()` of the `xcontainer` base: forwards to `strides_impl`. -/
def pyarray.strides {α : Type} (c : pyarray α) : pystrides_adaptor := c.strides_impl

/-! ## `pyarray_backstrides` -/

/-- The constructor `pyarray_backstrides(const array_type& a) : p_a(&a)`. -/
def pyarray_backstrides.ctor (a : Nat) : pyarray_backstrides := ⟨some a⟩

/-- The operator `pyarray_backstrides<A>::operator[]`:
```
value_type sh = p_a->shape()[i];
value_type res = sh == 1 ? 0 : (sh - 1) * p_a->strides()[i];
return res;
```
`value_type` is `size_type`: `sh - 1` and the product wrap modulo `2 ^ w`.  The
stride is read only in the second branch of the conditional.  `none` stands for
a dangling `p_a` or an index outside the rank. -/
def pyarray_backstrides.get {α : Type} (w : Nat) (T : ElemType) (σ : Store α)
    (b : pyarray_backstrides) (i : Nat) : Option Nat :=
  match b.p_a with
  | none => none
  | some a =>
    match σ a with
    | none => none
    | some c =>
      match c.shape.get i with
      | none => none
      | some sh =>
        if sh = 1 then some 0
        else
          match c.strides.get T.sizeof i with
          | none => none
          | some st => some (((sh + (2 ^ w - 1)) % 2 ^ w * st) % 2 ^ w)

/-! ## Construction -/

/-- The enumeration `xt::layout`. -/
inductive layout where
  | row_major
  | column_major
  deriving DecidableEq, Repr

/-- Modelled from the spec: the row-major half of `fill_default_strides` (spec
4.4: `stride[n-1] = 1`, `stride[i] = stride[i+1] * d[i+1]`), on the extents from
some dimension on: the strides of these dimensions, and the running product
`data_size`, which is the stride the dimension to their left receives. -/
def row_major_strides (w : Nat) : List Nat → List Nat × Nat
  | [] => ([], 1)
  | d :: ds =>
    let r := row_major_strides w ds
    (r.2 :: r.1, (r.2 * d) % 2 ^ w)

/-- Modelled from the spec: the column-major half of `fill_default_strides`
(spec 4.4: column-major mirrors row-major from the left); `data_size` is the
stride of the dimension at the head of the list. -/
def column_major_strides (w : Nat) : Nat → List Nat → List Nat
  | _, [] => []
  | data_size, d :: ds => data_size :: column_major_strides w ((data_size * d) % 2 ^ w) ds

/-- Modelled from the spec: `pycontainer::fill_default_strides` of
`pycontainer.hpp`, which is not among the sources.  Spec 4.4: row-major
`stride[n-1] = 1`, `stride[i] = stride[i+1] * d[i+1]` for `i` from `n-2` down to
`0`; column-major mirrors this from the left.  The results are stored in a
`std::vector<size_type>`, so each product is reduced modulo `2 ^ w`. -/
def fill_default_strides (w : Nat) (shape : List Nat) (l : layout) : List Nat :=
  match l with
  | layout.row_major => (row_major_strides w shape).1
  | layout.column_major => column_major_strides w 1 shape

/-- The flag `NPY_ARRAY_ALIGNED` of the NumPy C API (`0x0100`). -/
def NPY_ARRAY_ALIGNED : Nat := 0x0100

/-- The flag `NPY_ARRAY_WRITEABLE` of the NumPy C API (`0x0400`). -/
def NPY_ARRAY_WRITEABLE : Nat := 0x0400

/-- The arguments of a call `PyArray_New(&PyArray_Type, nd, dims, type_num,
strides, nullptr, itemsize, flags, nullptr)` that vary from call to call. -/
structure NewCall where
  nd : Nat
  dims : List Nat
  type_num : Int
  strides : List Nat
  itemsize : Nat
  flags : Nat
  deriving DecidableEq, Repr

/-- The foreign allocator `PyArray_New`: `none` is a null result. -/
abbrev Allocator (α : Type) := NewCall → Option (PyArrayObject α)

/-- The product of the extents that are not zero: the element count NumPy
checks against the address space before it allocates (a zero extent is
skipped, the other extents are still multiplied). -/
def nonzero_product : List Nat → Nat
  | [] => 1
  | d :: ds => (if d = 0 then 1 else d) * nonzero_product ds

/-- What `PyArray_New` guarantees of an array it returns, for every request: the
array has the rank, the extents and the byte strides of the request (the
strides argument is not null, so it is taken as passed), and the request was
not refused as too big, that is, the item size times the product of the
non-zero extents fits in `w` bits. -/
def PyArray_New_contract {α : Type} (w : Nat) (PyArray_New : Allocator α) : Prop :=
  ∀ (r : NewCall) (py : PyArrayObject α), PyArray_New r = some py →
    py.nd = r.nd ∧ py.dimensions = r.dims ∧ py.strides = r.strides ∧
    r.itemsize * nonzero_product r.dims < 2 ^ w

/-- The flags computed by `init_array`:
```
int flags = NPY_ARRAY_ALIGNED;
if(!std::is_const<T>::value) { flags |= NPY_ARRAY_WRITEABLE; }
``` -/
def init_array_flags (T : ElemType) : Nat :=
  if !T.is_const then NPY_ARRAY_ALIGNED ||| NPY_ARRAY_WRITEABLE else NPY_ARRAY_ALIGNED

/-- First part of `pyarray<T>::init_array`, up to the call of `PyArray_New`: the
strides are copied and every entry replaced by `sizeof(T) * v` (a `size_type`
product), the flags and the type number are computed, and the call receives
the rank `shape.size()`, the cells of `shape` and of the adapted strides, and
`sizeof(T)`.  The two `static_cast<int>` keep the value of every rank and item
size below `2 ^ 31`. -/
def init_array_call (w : Nat) (T : ElemType) (shape strides : List Nat) : NewCall where
  nd := shape.length
  dims := shape
  type_num := T.type_num
  strides := strides.map (fun v => (T.sizeof * v) % 2 ^ w)
  itemsize := T.sizeof
  flags := init_array_flags T

/-- The member `pyarray<T>::init_from_python`: the four members are rebuilt from
`python_array()`, the array object behind `m_ptr`.  With a null `m_ptr` the
accessors dereference a null pointer. -/
def pyarray.init_from_python {α : Type} (self : Nat) (c : pyarray α) :
    Except Fault (pyarray α) :=
  match c.m_ptr with
  | none => Except.error Fault.null_handle
  | some py =>
    Except.ok { c with
      m_shape := ⟨py.dimensions, py.nd⟩
      m_strides := ⟨py.strides, py.nd⟩
      m_backstrides := pyarray_backstrides.ctor self
      m_data := ⟨py.data, py.size⟩ }

/-- The member `pyarray<T>::init_array`: the outcome of the call and the state of
`*this` when it ends.
```
if(!tmp) throw std::runtime_error("NumPy: unable to create ndarray");
this->m_ptr = tmp.release().ptr();
init_from_python();
``` -/
def pyarray.init_array {α : Type} (w : Nat) (T : ElemType) (PyArray_New : Allocator α)
    (self : Nat) (c : pyarray α) (shape strides : List Nat) :
    Except Fault Unit × pyarray α :=
  match PyArray_New (init_array_call w T shape strides) with
  | none => (Except.error (Fault.runtime_error "NumPy: unable to create ndarray"), c)
  | some py =>
    let c1 : pyarray α := { c with m_ptr := some py }
    match c1.init_from_python self with
    | Except.ok c2 => (Except.ok (), c2)
    | Except.error e => (Except.error e, c1)

/-- The container that `init_from_python` leaves at address `self` when `m_ptr`
points at `py`. -/
def pyarray.bound_to {α : Type} (self : Nat) (py : PyArrayObject α) : pyarray α :=
  { m_ptr := some py, m_shape := ⟨py.dimensions, py.nd⟩, m_strides := ⟨py.strides, py.nd⟩,
    m_backstrides := pyarray_backstrides.ctor self, m_data := ⟨py.data, py.size⟩ }

/-- The defaulted constructor `pyarray()`: a null handle and empty members. -/
def pyarray.ctor_default {α : Type} : pyarray α :=
  { m_ptr := none, m_shape := ⟨[], 0⟩, m_strides := ⟨[], 0⟩, m_backstrides := ⟨none⟩,
    m_data := ⟨[], 0⟩ }

/-- A constructor that ends by an exception produces no object. -/
def finish_ctor {α : Type} (r : Except Fault Unit × pyarray α) : Except Fault (pyarray α) :=
  match r.1 with
  | Except.ok _ => Except.ok r.2
  | Except.error e => Except.error e

/-- The constructor `pyarray(const shape_type& shape, layout l)`:
`fill_default_strides(shape, l, strides); init_array(shape, strides);`. -/
def pyarray.ctor_shape_layout {α : Type} (w : Nat) (T : ElemType) (PyArray_New : Allocator α)
    (self : Nat) (shape : List Nat) (l : layout) : Except Fault (pyarray α) :=
  finish_ctor
    (pyarray.ctor_default.init_array w T PyArray_New self shape (fill_default_strides w shape l))

/-- The constructor `pyarray(const shape_type& shape, const strides_type& strides)`:
`init_array(shape, strides);`. -/
def pyarray.ctor_shape_strides {α : Type} (w : Nat) (T : ElemType) (PyArray_New : Allocator α)
    (self : Nat) (shape strides : List Nat) : Except Fault (pyarray α) :=
  finish_ctor (pyarray.ctor_default.init_array w T PyArray_New self shape strides)

/-- The constructor `pyarray(pybind11::handle h, pybind11::object::borrowed_t)`:
`base_type(h, borrowed)` followed by `init_from_python()`.  The base constructor
is in `pycontainer.hpp`, not among the sources; it is taken to store `h` in
`m_ptr`, which is what the spec says of wrapping a handle in borrow mode. -/
def pyarray.ctor_borrowed {α : Type} (self : Nat) (h : Option (PyArrayObject α)) :
    Except Fault (pyarray α) :=
  pyarray.init_from_python self { (pyarray.ctor_default : pyarray α) with m_ptr := h }

/-- The member `pyarray<T>::backstrides_impl`:
`m_backstrides = backstrides_type(*this); return m_backstrides;`.  The member is
`mutable`, so the state of `*this` changes; both the new state and the returned
calculator are given. -/
def pyarray.backstrides_impl {α : Type} (self : Nat) (c : pyarray α) :
    pyarray α × pyarray_backstrides :=
  let c1 : pyarray α := { c with m_backstrides := pyarray_backstrides.ctor self }
  (c1, c1.m_backstrides)

/-- Reading `backstrides()[i]` on the container at address `self`: the accessor
`backstrides()` of the `xcontainer` base forwards to `backstrides_impl`, and
`operator[]` is applied to what it returns. -/
def Store.read_backstride {α : Type} (w : Nat) (T : ElemType) (σ : Store α) (self : Nat)
    (i : Nat) : Option Nat :=
  match σ self with
  | none => none
  | some c =>
    let r := c.backstrides_impl self
    r.2.get w T (σ.set self r.1) i

/-- The implicit copy constructor of `pyarray<T>` builds at `dst` a memberwise
copy of the container at `src`. -/
def Store.copy {α : Type} (σ : Store α) (src dst : Nat) : Store α :=
  match σ src with
  | none => σ
  | some c => σ.set dst c

/-! ## Concrete data for the examples -/

/-- The element type `double`: eight bytes, not const, `NPY_DOUBLE = 12`. -/
def T_double : ElemType := ⟨8, false, 12, by decide⟩

/-- The element type `const double`. -/
def T_const_double : ElemType := ⟨8, true, 12, by decide⟩

/-- An allocator that grants every request: the array returned carries the
requested rank, extents and byte strides and a zero-filled buffer. -/
def granting_alloc : Allocator Nat := fun r =>
  some { nd := r.nd, dimensions := r.dims, strides := r.strides,
         data := List.replicate r.dims.prod 0, size := r.dims.prod }

/-- An allocator that behaves as NumPy does on a 64-bit platform: a request
whose item size times the product of its non-zero extents does not fit is
refused, every other request is granted as passed. -/
def numpy_like_alloc : Allocator Nat := fun r =>
  if r.itemsize * nonzero_product r.dims < 2 ^ 64 then
    some { nd := r.nd, dimensions := r.dims, strides := r.strides,
           data := List.replicate r.dims.prod 0, size := r.dims.prod }
  else none

/-- An allocator that refuses every request. -/
def refusing_alloc : Allocator Nat := fun _ => none

/-- The empty store. -/
def empty_store : Store Nat := fun _ => none

/-- A NumPy array of ten doubles seen in reverse (`x[::-1]`): byte stride `-8`,
whose 64-bit pattern is `2 ^ 64 - 8`. -/
def reversed_ten : PyArrayObject Nat :=
  { nd := 1, dimensions := [10], strides := [18446744073709551608],
    data := [9, 8, 7, 6, 5, 4, 3, 2, 1, 0], size := 10 }

/-- A container wrapping `reversed_ten`, as `init_from_python` at address `0`
leaves it. -/
def reversed_ten_array : pyarray Nat :=
  { m_ptr := some reversed_ten, m_shape := ⟨[10], 1⟩,
    m_strides := ⟨[18446744073709551608], 1⟩, m_backstrides := ⟨some 0⟩,
    m_data := ⟨[9, 8, 7, 6, 5, 4, 3, 2, 1, 0], 10⟩ }

/-- The container of shape `(1, 5)` of doubles, row-major, at address `0`:
byte strides `(40, 8)`. -/
def one_by_five : pyarray Nat :=
  { m_ptr := some { nd := 2, dimensions := [1, 5], strides := [40, 8],
                    data := [0, 0, 0, 0, 0], size := 5 },
    m_shape := ⟨[1, 5], 2⟩, m_strides := ⟨[40, 8], 2⟩, m_backstrides := ⟨some 0⟩,
    m_data := ⟨[0, 0, 0, 0, 0], 5⟩ }

/-- The element type `int16_t`: two bytes, not const, `NPY_SHORT = 3`. -/
def T_int16 : ElemType := ⟨2, false, 3, by decide⟩

/-- A foreign array of four 16-bit items laid out three bytes apart. -/
def packed_three : PyArrayObject Nat :=
  { nd := 1, dimensions := [4], strides := [3], data := [1, 2, 3, 4], size := 4 }

/-- A store after a copy: the container `one_by_five` was copied from address
`0` to address `1`, and address `0` was then given to another container. -/
def store_after_copy : Store Nat :=
  (((empty_store.set 0 one_by_five).copy 0 1).set 0 reversed_ten_array)

/-! ## Theorems -/

/-- C1. Broadcast safety of `pyarray_backstrides::operator[]`: for every
container, whatever its stride sequence, and every dimension `i` of it, if
`shape[i] == 1` then the backstride read at `i` is `0`. -/
theorem backstrides_broadcast_safe {α : Type} (w : Nat) (T : ElemType) (σ : Store α)
    (b : pyarray_backstrides) (a : Nat) (c : pyarray α) (s : pystrides_adaptor) (i : Nat)
    (hb : b.p_a = some a) (hσ : σ a = some { c with m_strides := s })
    (hsh : c.shape.get i = some 1) :
    b.get w T σ i = some 0 := by
  have hsh2 : (pyarray.shape { c with m_strides := s }).get i = some 1 := hsh
  simp [pyarray_backstrides.get, hb, hσ, hsh2]

/-- Wrapping decrement of an extent that is at least one. -/
theorem wrap_pred (M sh : Nat) (hM : 0 < M) (h1 : 1 ≤ sh) :
    (sh + (M - 1)) % M = (sh - 1) % M := by
  have h : sh + (M - 1) = (sh - 1) + M := by omega
  rw [h, Nat.add_mod_right]

/-- The product by `M - 1` is the negation modulo `M`. -/
theorem wrap_neg (M st : Nat) (hlt : st < M) :
    ((M - 1) * st) % M = (M - st) % M := by
  rcases st with _ | j
  · simp
  · obtain ⟨k, rfl⟩ : ∃ k, M = k + 1 := ⟨M - 1, by omega⟩
    have hjk : j ≤ k := by omega
    have h : (k + 1 - 1) * (j + 1) = (k + 1 - (j + 1)) + (k + 1) * j := by
      have e1 : k + 1 - 1 = k := by omega
      have e2 : k + 1 - (j + 1) = k - j := by omega
      rw [e1, e2]
      obtain ⟨d, rfl⟩ : ∃ d, k = j + d := ⟨k - j, by omega⟩
      have e3 : j + d - j = d := by omega
      rw [e3]
      ring
    rw [h, Nat.add_mul_mod_self_left]

/-- C1 at scenario 3 of the spec: shape `(1, 5)`, dimension `0`. -/
theorem backstrides_broadcast_safe_witness :
    pyarray_backstrides.get 64 T_double (empty_store.set 0 one_by_five) ⟨some 0⟩ 0 = some 0 :=
  backstrides_broadcast_safe 64 T_double (empty_store.set 0 one_by_five) ⟨some 0⟩ 0
    one_by_five one_by_five.m_strides 0 rfl rfl rfl

/-- C2, as it is written, fails: the container wrapping ten doubles in reverse
order has `shape[0] = 10` and exposes the element stride `2 ^ 61 - 1`; the
backstride read at `0` is `2 ^ 61 - 9`, not the product `9 * (2 ^ 61 - 1)`. -/
theorem backstrides_product_counterexample :
    pyarray.ctor_borrowed 0 (some reversed_ten) = Except.ok reversed_ten_array ∧
    reversed_ten_array.shape.get 0 = some 10 ∧
    reversed_ten_array.strides.get T_double.sizeof 0 = some 2305843009213693951 ∧
    pyarray_backstrides.get 64 T_double (empty_store.set 0 reversed_ten_array) ⟨some 0⟩ 0
      = some 2305843009213693943 ∧
    pyarray_backstrides.get 64 T_double (empty_store.set 0 reversed_ten_array) ⟨some 0⟩ 0
      ≠ some ((10 - 1) * 2305843009213693951) := by
  refine ⟨rfl, by decide, by decide, by decide, by decide⟩

/-- C2, amended: for every container and every dimension `i` of it with
`shape[i] > 1`, `operator[](i)` returns `(shape[i] - 1) * stride[i]` reduced
modulo `2 ^ w`, where `stride[i]` is the unsigned element stride the container
exposes; it is the product itself whenever the product is below `2 ^ w`. -/
theorem backstrides_product_mod {α : Type} (w : Nat) (T : ElemType) (σ : Store α)
    (b : pyarray_backstrides) (a : Nat) (c : pyarray α) (i sh st : Nat)
    (hb : b.p_a = some a) (hσ : σ a = some c)
    (hsh : c.shape.get i = some sh) (hst : c.strides.get T.sizeof i = some st)
    (h1 : 1 < sh) :
    b.get w T σ i = some (((sh - 1) * st) % 2 ^ w) ∧
    ((sh - 1) * st < 2 ^ w → b.get w T σ i = some ((sh - 1) * st)) := by
  have hM : 0 < 2 ^ w := Nat.two_pow_pos w
  have hne : sh ≠ 1 := by omega
  have hval : b.get w T σ i = some (((sh - 1) * st) % 2 ^ w) := by
    simp only [pyarray_backstrides.get, hb, hσ, hsh, hst, if_neg hne]
    rw [wrap_pred (2 ^ w) sh hM (by omega), Nat.mod_mul_mod]
  refine ⟨hval, fun hlt => ?_⟩
  rw [hval, Nat.mod_eq_of_lt hlt]

/-- C2 amended, on a `(3, 4)` row-major container of doubles: backstride `2 * 4`. -/
theorem backstrides_product_mod_witness :
    pyarray_backstrides.get 64 T_double
        (empty_store.set 5 { one_by_five with m_shape := ⟨[3, 4], 2⟩, m_strides := ⟨[32, 8], 2⟩ })
        ⟨some 5⟩ 0 = some (((3 - 1) * 4) % 2 ^ 64) ∧
    ((3 - 1) * 4 < 2 ^ 64 →
      pyarray_backstrides.get 64 T_double
        (empty_store.set 5 { one_by_five with m_shape := ⟨[3, 4], 2⟩, m_strides := ⟨[32, 8], 2⟩ })
        ⟨some 5⟩ 0 = some ((3 - 1) * 4)) :=
  backstrides_product_mod 64 T_double _ ⟨some 5⟩ 5 _ 0 3 4 rfl rfl (by decide) (by decide)
    (by decide)

/-- C10. Zero extents are not special-cased: for every dimension `i` with
`shape[i] == 0` and element stride `stride[i]` (a `size_type` value),
`operator[](i)` returns `(2 ^ w - stride[i]) mod 2 ^ w`, and this is `0` only
when `stride[i]` is `0` modulo `2 ^ w`. -/
theorem backstrides_zero_extent {α : Type} (w : Nat) (T : ElemType) (σ : Store α)
    (b : pyarray_backstrides) (a : Nat) (c : pyarray α) (i st : Nat)
    (hb : b.p_a = some a) (hσ : σ a = some c)
    (hsh : c.shape.get i = some 0) (hst : c.strides.get T.sizeof i = some st)
    (hlt : st < 2 ^ w) :
    b.get w T σ i = some ((2 ^ w - st) % 2 ^ w) ∧
    ((2 ^ w - st) % 2 ^ w = 0 ↔ st % 2 ^ w = 0) := by
  have hM : 0 < 2 ^ w := Nat.two_pow_pos w
  constructor
  · have h0 : (0 + (2 ^ w - 1)) % 2 ^ w = 2 ^ w - 1 := by
      rw [Nat.zero_add]; exact Nat.mod_eq_of_lt (by omega)
    simp only [pyarray_backstrides.get, hb, hσ, hsh, hst]
    rw [if_neg (by decide), h0, wrap_neg (2 ^ w) st hlt]
  · rw [Nat.mod_eq_of_lt hlt]
    constructor
    · intro h
      by_contra hne
      have : (2 ^ w - st) % 2 ^ w = 2 ^ w - st := Nat.mod_eq_of_lt (by omega)
      omega
    · intro h
      subst h
      simp

/-- C10 on a container of shape `(0, 5)` with byte strides `(40, 8)`: the
backstride of dimension `0` is `2 ^ 64 - 5`. -/
theorem backstrides_zero_extent_witness :
    pyarray_backstrides.get 64 T_double
        (empty_store.set 0 { one_by_five with m_shape := ⟨[0, 5], 2⟩ }) ⟨some 0⟩ 0
      = some ((2 ^ 64 - 5) % 2 ^ 64) ∧
    ((2 ^ 64 - 5) % 2 ^ 64 = 0 ↔ 5 % 2 ^ 64 = 0) :=
  backstrides_zero_extent 64 T_double _ ⟨some 0⟩ 0 _ 0 5 rfl rfl (by decide) (by decide)
    (by decide)

/-- C9. Backstrides are never stale: for every container at address `self`,
whatever calculator it stores (after a copy, one still pointing at the
original), `backstrides_impl` rebinds the calculator to `self`, and the value
read through the accessor at dimension `i` is the backstride formula on the
container's own `shape[i]` and `stride[i]`. -/
theorem backstrides_never_stale {α : Type} (w : Nat) (T : ElemType) (σ : Store α)
    (self : Nat) (c : pyarray α) (i sh st : Nat) (hσ : σ self = some c)
    (hsh : c.shape.get i = some sh) (hst : c.strides.get T.sizeof i = some st) :
    (c.backstrides_impl self).2.p_a = some self ∧
    (c.backstrides_impl self).1.m_backstrides.p_a = some self ∧
    σ.read_backstride w T self i
      = some (if sh = 1 then 0 else ((sh + (2 ^ w - 1)) % 2 ^ w * st) % 2 ^ w) := by
  refine ⟨rfl, rfl, ?_⟩
  have hsh1 : (pyarray.shape { c with m_backstrides := ⟨some self⟩ }).get i = some sh := hsh
  have hst1 : (pyarray.strides { c with m_backstrides := ⟨some self⟩ }).get T.sizeof i
      = some st := hst
  simp only [Store.read_backstride, hσ, pyarray.backstrides_impl, pyarray_backstrides.get,
    pyarray_backstrides.ctor, Store.set, if_true, hsh1, hst1]
  split <;> rfl

/-- C9 on a copy: the copy at address `1` of the `(1, 5)` container still stores
a calculator pointing at address `0`, where a reversed array of extent `10` now
lives; reading through the accessor of the copy gives its own backstride `4`
at dimension `1`. -/
theorem backstrides_never_stale_witness :
    store_after_copy 1 = some one_by_five ∧
    one_by_five.m_backstrides.p_a = some 0 ∧
    ((one_by_five.backstrides_impl 1).2.p_a = some 1 ∧
     (one_by_five.backstrides_impl 1).1.m_backstrides.p_a = some 1 ∧
     store_after_copy.read_backstride 64 T_double 1 1
       = some (if 5 = 1 then 0 else ((5 + (2 ^ 64 - 1)) % 2 ^ 64 * 1) % 2 ^ 64)) :=
  ⟨rfl, rfl,
   backstrides_never_stale 64 T_double store_after_copy 1 one_by_five 1 5 1 rfl
     (by decide) (by decide)⟩

/-- C6. Allocation failure is explicit and atomic: `init_array` ends by an error
if and only if `PyArray_New` returns null; the error is then the
`std::runtime_error`, and the state of the container is the state before the
call.  The two constructors built on it fail exactly then. -/
theorem init_array_failure_atomic {α : Type} (w : Nat) (T : ElemType)
    (PyArray_New : Allocator α) (self : Nat) (c : pyarray α) (shape strides : List Nat) :
    ((∃ e, (c.init_array w T PyArray_New self shape strides).1 = Except.error e) ↔
      PyArray_New (init_array_call w T shape strides) = none) ∧
    (∀ e, (c.init_array w T PyArray_New self shape strides).1 = Except.error e →
      e = Fault.runtime_error "NumPy: unable to create ndarray" ∧
      (c.init_array w T PyArray_New self shape strides).2 = c) ∧
    ((∃ e, pyarray.ctor_shape_strides w T PyArray_New self shape strides = Except.error e) ↔
      PyArray_New (init_array_call w T shape strides) = none) ∧
    (∀ l, (∃ e, pyarray.ctor_shape_layout w T PyArray_New self shape l = Except.error e) ↔
      PyArray_New (init_array_call w T shape (fill_default_strides w shape l)) = none) := by
  have key : ∀ (c : pyarray α) (strides : List Nat),
      (PyArray_New (init_array_call w T shape strides) = none ∧
        c.init_array w T PyArray_New self shape strides
          = (Except.error (Fault.runtime_error "NumPy: unable to create ndarray"), c)) ∨
      (∃ py c2, PyArray_New (init_array_call w T shape strides) = some py ∧
        c.init_array w T PyArray_New self shape strides = (Except.ok (), c2)) := by
    intro c strides
    cases h : PyArray_New (init_array_call w T shape strides) with
    | none => left; simp [pyarray.init_array, h]
    | some py =>
      right
      refine ⟨py, { c with
        m_ptr := some py
        m_shape := ⟨py.dimensions, py.nd⟩
        m_strides := ⟨py.strides, py.nd⟩
        m_backstrides := pyarray_backstrides.ctor self
        m_data := ⟨py.data, py.size⟩ }, rfl, ?_⟩
      rw [pyarray.init_array, h]
      rfl
  refine ⟨?_, ?_, ?_, ?_⟩
  · rcases key c strides with ⟨h, hr⟩ | ⟨py, c2, h, hr⟩
    · rw [hr, h]; simp
    · rw [hr, h]; simp
  · intro e he
    rcases key c strides with ⟨h, hr⟩ | ⟨py, c2, h, hr⟩
    · rw [hr] at he ⊢
      simp only [Except.error.injEq] at he
      exact ⟨he.symm, rfl⟩
    · rw [hr] at he
      simp at he
  · rcases key pyarray.ctor_default strides with ⟨h, hr⟩ | ⟨py, c2, h, hr⟩
    · simp [pyarray.ctor_shape_strides, finish_ctor, hr, h]
    · simp [pyarray.ctor_shape_strides, finish_ctor, hr, h]
  · intro l
    rcases key pyarray.ctor_default (fill_default_strides w shape l) with
      ⟨h, hr⟩ | ⟨py, c2, h, hr⟩
    · simp [pyarray.ctor_shape_layout, finish_ctor, hr, h]
    · simp [pyarray.ctor_shape_layout, finish_ctor, hr, h]

/-- C7. For every shape and stride request, the flags `init_array` passes to
`PyArray_New` contain `NPY_ARRAY_ALIGNED`, contain `NPY_ARRAY_WRITEABLE` if and
only if `T` is not const, and have no other bit set; an allocator that refuses
every call with other flags is indistinguishable from the given one. -/
theorem init_array_flags_aligned_writable {α : Type} (w : Nat) (T : ElemType)
    (shape strides : List Nat) :
    (init_array_call w T shape strides).flags &&& NPY_ARRAY_ALIGNED = NPY_ARRAY_ALIGNED ∧
    ((init_array_call w T shape strides).flags &&& NPY_ARRAY_WRITEABLE = NPY_ARRAY_WRITEABLE ↔
      T.is_const = false) ∧
    (∀ k, (init_array_call w T shape strides).flags.testBit k = true →
      NPY_ARRAY_ALIGNED.testBit k = true ∨ NPY_ARRAY_WRITEABLE.testBit k = true) ∧
    (∀ (PyArray_New : Allocator α) (self : Nat) (c : pyarray α),
      c.init_array w T PyArray_New self shape strides =
      c.init_array w T
        (fun r => if r.flags = (if T.is_const = false
                      then NPY_ARRAY_ALIGNED ||| NPY_ARRAY_WRITEABLE else NPY_ARRAY_ALIGNED)
                  then PyArray_New r else none)
        self shape strides) := by
  have hf : (init_array_call w T shape strides).flags = init_array_flags T := rfl
  rw [hf]
  cases hc : T.is_const with
  | false =>
    have hv : init_array_flags T = NPY_ARRAY_ALIGNED ||| NPY_ARRAY_WRITEABLE := by
      simp [init_array_flags, hc]
    rw [hv]
    refine ⟨by decide, by simp; decide, ?_, ?_⟩
    · intro k hk
      rw [Nat.testBit_lor, Bool.or_eq_true] at hk
      exact hk
    · intro PyArray_New self c
      simp [pyarray.init_array, init_array_call, init_array_flags, hc]
  | true =>
    have hv : init_array_flags T = NPY_ARRAY_ALIGNED := by
      simp [init_array_flags, hc]
    rw [hv]
    refine ⟨by decide, by simp; decide, ?_, ?_⟩
    · intro k hk
      exact Or.inl hk
    · intro PyArray_New self c
      simp [pyarray.init_array, init_array_call, init_array_flags, hc]

/-- C8. `init_from_python` is idempotent: on a container bound to a live handle
it succeeds, a second call leaves the same container, the result is the same
for every container bound to that handle (it depends on the description of the
handle only), and wrapping the handle again, at any address, gives the same
shape, strides, data view and element values. -/
theorem init_from_python_idempotent {α : Type} (self : Nat) (c : pyarray α)
    (py : PyArrayObject α) (h : c.m_ptr = some py) :
    ∃ c1, c.init_from_python self = Except.ok c1 ∧
      c1.init_from_python self = Except.ok c1 ∧
      (∀ c2 : pyarray α, c2.m_ptr = some py → c2.init_from_python self = Except.ok c1) ∧
      c1.shape_impl = ⟨py.dimensions, py.nd⟩ ∧
      c1.strides_impl = ⟨py.strides, py.nd⟩ ∧
      c1.m_backstrides = pyarray_backstrides.ctor self ∧
      c1.data_impl = ⟨py.data, py.size⟩ ∧
      (∀ self2, ∃ c3, pyarray.ctor_borrowed self2 (some py) = Except.ok c3 ∧
        c3.shape_impl = c1.shape_impl ∧ c3.strides_impl = c1.strides_impl ∧
        c3.data_impl = c1.data_impl ∧
        (∀ i, c3.data_impl.get i = c1.data_impl.get i) ∧
        (∀ i, c3.shape.get i = c1.shape.get i) ∧
        (∀ N i, c3.strides.get N i = c1.strides.get N i)) := by
  refine ⟨{ m_ptr := some py, m_shape := ⟨py.dimensions, py.nd⟩,
            m_strides := ⟨py.strides, py.nd⟩, m_backstrides := pyarray_backstrides.ctor self,
            m_data := ⟨py.data, py.size⟩ }, ?_, rfl, ?_, rfl, rfl, rfl, rfl, ?_⟩
  · simp [pyarray.init_from_python, h]
  · intro c2 h2
    simp [pyarray.init_from_python, h2]
  · intro self2
    exact ⟨_, rfl, rfl, rfl, rfl, fun _ => rfl, fun _ => rfl, fun _ _ => rfl⟩

/-- C8 on the array of ten doubles in reverse order. -/
theorem init_from_python_idempotent_witness :
    ∃ c1, reversed_ten_array.init_from_python 0 = Except.ok c1 ∧
      c1.init_from_python 0 = Except.ok c1 ∧
      (∀ c2 : pyarray Nat, c2.m_ptr = some reversed_ten →
        c2.init_from_python 0 = Except.ok c1) ∧
      c1.shape_impl = ⟨reversed_ten.dimensions, reversed_ten.nd⟩ ∧
      c1.strides_impl = ⟨reversed_ten.strides, reversed_ten.nd⟩ ∧
      c1.m_backstrides = pyarray_backstrides.ctor 0 ∧
      c1.data_impl = ⟨reversed_ten.data, reversed_ten.size⟩ ∧
      (∀ self2, ∃ c3, pyarray.ctor_borrowed self2 (some reversed_ten) = Except.ok c3 ∧
        c3.shape_impl = c1.shape_impl ∧ c3.strides_impl = c1.strides_impl ∧
        c3.data_impl = c1.data_impl ∧
        (∀ i, c3.data_impl.get i = c1.data_impl.get i) ∧
        (∀ i, c3.shape.get i = c1.shape.get i) ∧
        (∀ N i, c3.strides.get N i = c1.strides.get N i)) :=
  init_from_python_idempotent 0 reversed_ten_array reversed_ten rfl

/-- C5, as it is written, fails: a handle whose byte stride `3` is not a
multiple of `sizeof(int16_t) = 2` is wrapped without any error, and the element
stride read at dimension `0` is the truncated quotient `1`. -/
theorem stride_divisibility_counterexample :
    3 % T_int16.sizeof ≠ 0 ∧
    ∃ c : pyarray Nat, pyarray.ctor_borrowed 0 (some packed_three) = Except.ok c ∧
      c.init_from_python 0 = Except.ok c ∧
      c.strides.get T_int16.sizeof 0 = some 1 ∧
      T_int16.sizeof * 1 ≠ 3 :=
  ⟨by decide, _, rfl, rfl, by decide, by decide⟩

/-- C5, amended: stride divisibility is not checked.  Building the container
from a live handle (`init_from_python`) never ends by an error, and the
element stride read at a dimension `i` with byte stride `b` is the quotient
`b / sizeof(T)` rounded down; it is the exact quotient if and only if
`sizeof(T)` divides `b`. -/
theorem stride_divisibility_unchecked {α : Type} (T : ElemType) (self : Nat) (c : pyarray α)
    (py : PyArrayObject α) (h : c.m_ptr = some py) :
    ∃ c1, c.init_from_python self = Except.ok c1 ∧
      ∀ i b, i < py.nd → py.strides[i]? = some b →
        c1.strides.get T.sizeof i = some (b / T.sizeof) ∧
        (T.sizeof * (b / T.sizeof) = b ↔ b % T.sizeof = 0) := by
  refine ⟨{ m_ptr := some py, m_shape := ⟨py.dimensions, py.nd⟩,
            m_strides := ⟨py.strides, py.nd⟩, m_backstrides := pyarray_backstrides.ctor self,
            m_data := ⟨py.data, py.size⟩ }, ?_, ?_⟩
  · simp [pyarray.init_from_python, h]
  · intro i b hi hb
    constructor
    · simp [pyarray.strides, pyarray.strides_impl, pystrides_adaptor.get, hi, hb]
    · constructor
      · intro e
        rw [← e]
        exact Nat.mul_mod_right _ _
      · intro e
        exact Nat.mul_div_cancel' (Nat.dvd_of_mod_eq_zero e)

/-- C5 amended, on the handle with byte stride `3` and two-byte items. -/
theorem stride_divisibility_unchecked_witness :
    ∃ c1, ({ (pyarray.ctor_default : pyarray Nat) with m_ptr := some packed_three }
          ).init_from_python 0 = Except.ok c1 ∧
      ∀ i b, i < packed_three.nd → packed_three.strides[i]? = some b →
        c1.strides.get T_int16.sizeof i = some (b / T_int16.sizeof) ∧
        (T_int16.sizeof * (b / T_int16.sizeof) = b ↔ b % T_int16.sizeof = 0) :=
  stride_divisibility_unchecked T_int16 0 _ packed_three rfl

/-- When the allocator returns an array, `init_array` succeeds and leaves the
container bound to it. -/
theorem init_array_ok {α : Type} (w : Nat) (T : ElemType) (PyArray_New : Allocator α)
    (self : Nat) (c : pyarray α) (shape strides : List Nat) (py : PyArrayObject α)
    (halloc : PyArray_New (init_array_call w T shape strides) = some py) :
    c.init_array w T PyArray_New self shape strides =
      (Except.ok (), pyarray.bound_to self py) := by
  rw [pyarray.init_array, halloc]
  rfl

/-- Dividing the byte stride `sizeof(T) * v` by `sizeof(T)` gives `v` back when
the product did not wrap. -/
theorem byte_stride_div_cancel (w N n : Nat) (strides : List Nat) (i : Nat) (hN : 0 < N)
    (hfit : ∀ v ∈ strides, N * v < 2 ^ w) (hi : i < n) :
    pystrides_adaptor.get N ⟨strides.map (fun v => (N * v) % 2 ^ w), n⟩ i = strides[i]? := by
  simp only [pystrides_adaptor.get, if_pos hi, List.getElem?_map]
  cases h : strides[i]? with
  | none => rfl
  | some v =>
    have hv : v ∈ strides := List.getElem?_mem h
    simp only [Option.map_some']
    rw [Nat.mod_eq_of_lt (hfit v hv), Nat.mul_div_cancel_left v hN]

/-- C4, as it is written, fails: with doubles, shape `(1)` and the element stride
`2 ^ 61`, the byte stride handed to the allocator is `0` (the product
`8 * 2 ^ 61` wraps), and the container built on the array returned for this
request exposes the element stride `0`, not the stride supplied. -/
theorem stride_round_trip_counterexample :
    (init_array_call 64 T_double [1] [2305843009213693952]).strides = [0] ∧
    0 ≠ T_double.sizeof * 2305843009213693952 ∧
    ∃ c : pyarray Nat,
      pyarray.ctor_shape_strides 64 T_double granting_alloc 0 [1] [2305843009213693952]
        = Except.ok c ∧
      c.strides.get T_double.sizeof 0 = some 0 ∧
      c.strides.get T_double.sizeof 0 ≠ [2305843009213693952][0]? :=
  ⟨by decide, by decide, _, rfl, by decide, by decide⟩

/-- C4, amended: for every shape and every explicit element-stride sequence of
the same rank with `sizeof(T) * stride[i] < 2 ^ w` for every `i`, `init_array`
hands the allocator the byte strides `sizeof(T) * stride[i]`, and when the
allocator returns an array of the requested rank carrying these byte strides,
the element strides the container exposes are the strides supplied, for every
dimension `i`. -/
theorem stride_round_trip {α : Type} (w : Nat) (T : ElemType) (PyArray_New : Allocator α)
    (self : Nat) (shape strides : List Nat) (py : PyArrayObject α)
    (hlen : strides.length = shape.length)
    (hfit : ∀ v ∈ strides, T.sizeof * v < 2 ^ w)
    (halloc : PyArray_New (init_array_call w T shape strides) = some py)
    (hnd : py.nd = shape.length)
    (hstr : py.strides = (init_array_call w T shape strides).strides) :
    (init_array_call w T shape strides).strides = strides.map (fun v => T.sizeof * v) ∧
    ∃ c, pyarray.ctor_shape_strides w T PyArray_New self shape strides = Except.ok c ∧
      ∀ i, i < shape.length →
        ∃ v, strides[i]? = some v ∧ c.strides.get T.sizeof i = some v := by
  constructor
  · simp only [init_array_call]
    apply List.map_congr_left
    intro v hv
    exact Nat.mod_eq_of_lt (hfit v hv)
  · refine ⟨pyarray.bound_to self py, ?_, ?_⟩
    · simp only [pyarray.ctor_shape_strides]
      rw [init_array_ok w T PyArray_New self _ shape strides py halloc]
      rfl
    · intro i hi
      have hi2 : i < strides.length := by omega
      refine ⟨strides[i], List.getElem?_eq_getElem hi2, ?_⟩
      simp only [pyarray.strides, pyarray.strides_impl, pyarray.bound_to, hstr, hnd,
        init_array_call]
      rw [byte_stride_div_cancel w T.sizeof shape.length strides i T.sizeof_pos hfit hi]
      exact List.getElem?_eq_getElem hi2

/-- C4 amended, on shape `(3, 4)` with the element strides `(4, 1)` of doubles. -/
theorem stride_round_trip_witness :
    (init_array_call 64 T_double [3, 4] [4, 1]).strides
      = [4, 1].map (fun v => T_double.sizeof * v) ∧
    ∃ c, pyarray.ctor_shape_strides 64 T_double granting_alloc 0 [3, 4] [4, 1] = Except.ok c ∧
      ∀ i, i < [3, 4].length →
        ∃ v, [4, 1][i]? = some v ∧ c.strides.get T_double.sizeof i = some v :=
  stride_round_trip 64 T_double granting_alloc 0 [3, 4] [4, 1]
    { nd := 2, dimensions := [3, 4], strides := [32, 8], data := List.replicate 12 0,
      size := 12 }
    rfl (by decide) rfl rfl rfl

/-- Row-major: while the products of the extents fit, the running `data_size`
is the product of the extents seen. -/
theorem row_major_data_size (w : Nat) (S : List Nat)
    (hfit : ∀ k, k ≤ S.length → (S.drop k).prod < 2 ^ w) :
    (row_major_strides w S).2 = S.prod := by
  induction S with
  | nil => rfl
  | cons d ds ih =>
    have hds : ∀ k, k ≤ ds.length → (ds.drop k).prod < 2 ^ w := by
      intro k hk
      have := hfit (k + 1) (by simpa using hk)
      simpa using this
    have h0 := hfit 0 (by simp)
    simp only [List.drop_zero, List.prod_cons] at h0
    simp only [row_major_strides, List.prod_cons]
    rw [ih hds, Nat.mul_comm]
    exact Nat.mod_eq_of_lt h0

/-- Row-major: the number of strides is the rank. -/
theorem row_major_length (w : Nat) (S : List Nat) :
    (row_major_strides w S).1.length = S.length := by
  induction S with
  | nil => rfl
  | cons d ds ih => simp [row_major_strides, ih]

/-- Row-major: while they fit, the stride of dimension `i` is the product of the
extents to its right. -/
theorem row_major_closed_form (w : Nat) (S : List Nat)
    (hfit : ∀ i, i < S.length → (S.drop (i + 1)).prod < 2 ^ w) :
    ∀ i, i < S.length → (row_major_strides w S).1[i]? = some (S.drop (i + 1)).prod := by
  induction S with
  | nil => intro i hi; simp at hi
  | cons d ds ih =>
    have hds : ∀ k, k ≤ ds.length → (ds.drop k).prod < 2 ^ w := by
      intro k hk
      have := hfit k (by simp; omega)
      simpa using this
    intro i hi
    cases i with
    | zero =>
      simp only [row_major_strides, List.getElem?_cons_zero, Nat.zero_add, List.drop_succ_cons,
        List.drop_zero]
      rw [row_major_data_size w ds hds]
    | succ j =>
      simp only [row_major_strides, List.getElem?_cons_succ, List.drop_succ_cons]
      apply ih
      · intro k hk
        exact hds (k + 1) (by omega)
      · simpa using hi

/-- Column-major: the number of strides is the rank. -/
theorem column_major_length (w : Nat) (S : List Nat) :
    ∀ acc, (column_major_strides w acc S).length = S.length := by
  induction S with
  | nil => intro acc; rfl
  | cons d ds ih => intro acc; simp [column_major_strides, ih]

/-- Column-major: while they fit, the stride of dimension `i` is the starting
`data_size` times the product of the extents to its left. -/
theorem column_major_closed_form (w : Nat) (S : List Nat) :
    ∀ acc, (∀ i, i < S.length → acc * (S.take i).prod < 2 ^ w) →
    ∀ i, i < S.length → (column_major_strides w acc S)[i]? = some (acc * (S.take i).prod) := by
  induction S with
  | nil => intro acc _ i hi; simp at hi
  | cons d ds ih =>
    intro acc hfit i hi
    cases i with
    | zero => simp [column_major_strides]
    | succ j =>
      have hj : j < ds.length := by simpa using hi
      have h1 := hfit 1 (by simp; omega)
      simp only [List.take_succ_cons, List.take_zero, List.prod_cons, List.prod_nil,
        Nat.mul_one] at h1
      simp only [column_major_strides, List.getElem?_cons_succ, List.take_succ_cons,
        List.prod_cons]
      rw [Nat.mod_eq_of_lt h1, ← Nat.mul_assoc]
      apply ih (acc * d)
      · intro k hk
        have := hfit (k + 1) (by simpa using hk)
        simpa [List.take_succ_cons, List.prod_cons, Nat.mul_assoc] using this
      · exact hj

/-- The product of the extents from `i` on starts with the extent of `i`. -/
theorem prod_drop_step (S : List Nat) (i d : Nat) (hd : S[i]? = some d) :
    (S.drop i).prod = (S.drop (i + 1)).prod * d := by
  induction S generalizing i with
  | nil => simp at hd
  | cons x xs ih =>
    cases i with
    | zero =>
      simp only [List.getElem?_cons_zero, Option.some.injEq] at hd
      subst hd
      simp [Nat.mul_comm]
    | succ j =>
      simp only [List.getElem?_cons_succ] at hd
      simpa using ih j hd

/-- The product of the first `i + 1` extents ends with the extent of `i`. -/
theorem prod_take_step (S : List Nat) (i d : Nat) (hd : S[i]? = some d) :
    (S.take (i + 1)).prod = (S.take i).prod * d := by
  induction S generalizing i with
  | nil => simp at hd
  | cons x xs ih =>
    cases i with
    | zero =>
      simp only [List.getElem?_cons_zero, Option.some.injEq] at hd
      subst hd
      simp
    | succ j =>
      simp only [List.getElem?_cons_succ] at hd
      simp only [List.take_succ_cons, List.prod_cons, ih j hd, Nat.mul_assoc]

/-- The product of the non-zero extents is positive. -/
theorem nonzero_product_pos (S : List Nat) : 0 < nonzero_product S := by
  induction S with
  | nil => simp [nonzero_product]
  | cons d ds ih =>
    simp only [nonzero_product]
    split
    · simpa using ih
    · exact Nat.mul_pos (by omega) ih

/-- The product of the extents is at most the product of the non-zero ones. -/
theorem prod_le_nonzero_product (S : List Nat) : S.prod ≤ nonzero_product S := by
  induction S with
  | nil => simp [nonzero_product]
  | cons d ds ih =>
    simp only [nonzero_product, List.prod_cons]
    split
    · next h => subst h; simp
    · exact Nat.mul_le_mul_left d ih

/-- The product of the non-zero extents splits over a concatenation. -/
theorem nonzero_product_append (A B : List Nat) :
    nonzero_product (A ++ B) = nonzero_product A * nonzero_product B := by
  induction A with
  | nil => simp [nonzero_product]
  | cons d ds ih =>
    show (if d = 0 then 1 else d) * nonzero_product (ds ++ B)
      = (if d = 0 then 1 else d) * nonzero_product ds * nonzero_product B
    rw [ih, Nat.mul_assoc]

/-- The extents to the right of a dimension multiply to at most the product of
the non-zero extents. -/
theorem prod_drop_le_nonzero_product (S : List Nat) (k : Nat) :
    (S.drop k).prod ≤ nonzero_product S := by
  have h1 := prod_le_nonzero_product (S.drop k)
  have h2 : nonzero_product S = nonzero_product (S.take k) * nonzero_product (S.drop k) := by
    rw [← nonzero_product_append, List.take_append_drop]
  have h3 := nonzero_product_pos (S.take k)
  calc (S.drop k).prod ≤ nonzero_product (S.drop k) := h1
    _ ≤ nonzero_product (S.take k) * nonzero_product (S.drop k) :=
        Nat.le_mul_of_pos_left _ h3
    _ = nonzero_product S := h2.symm

/-- The extents to the left of a dimension multiply to at most the product of
the non-zero extents. -/
theorem prod_take_le_nonzero_product (S : List Nat) (k : Nat) :
    (S.take k).prod ≤ nonzero_product S := by
  have h1 := prod_le_nonzero_product (S.take k)
  have h2 : nonzero_product S = nonzero_product (S.take k) * nonzero_product (S.drop k) := by
    rw [← nonzero_product_append, List.take_append_drop]
  have h3 := nonzero_product_pos (S.drop k)
  calc (S.take k).prod ≤ nonzero_product (S.take k) := h1
    _ ≤ nonzero_product (S.take k) * nonzero_product (S.drop k) :=
        Nat.le_mul_of_pos_right _ h3
    _ = nonzero_product S := h2.symm

/-- The default strides of a container bound to an array that carries the
extents `S` and the byte strides requested for them, when these byte strides
did not wrap. -/
theorem default_strides_when_fit {α : Type} (w : Nat) (T : ElemType) (self : Nat)
    (S : List Nat) (L : layout) (py : PyArrayObject α)
    (hrow : L = layout.row_major →
      ∀ i, i < S.length → T.sizeof * (S.drop (i + 1)).prod < 2 ^ w)
    (hcol : L = layout.column_major →
      ∀ i, i < S.length → T.sizeof * (S.take i).prod < 2 ^ w)
    (hnd : py.nd = S.length) (hdims : py.dimensions = S)
    (hstr : py.strides = (fill_default_strides w S L).map (fun v => (T.sizeof * v) % 2 ^ w)) :
    (pyarray.bound_to self py).shape.m_size = S.length ∧
    (∀ i, i < S.length → (pyarray.bound_to self py).shape.get i = S[i]?) ∧
    (L = layout.row_major →
      (∀ i, i + 1 = S.length → (pyarray.bound_to self py).strides.get T.sizeof i = some 1) ∧
      (∀ i d, i + 1 < S.length → S[i + 1]? = some d →
        ∃ s, (pyarray.bound_to self py).strides.get T.sizeof (i + 1) = some s ∧
          (pyarray.bound_to self py).strides.get T.sizeof i = some (s * d))) ∧
    (L = layout.column_major →
      (0 < S.length → (pyarray.bound_to self py).strides.get T.sizeof 0 = some 1) ∧
      (∀ i d, i + 1 < S.length → S[i]? = some d →
        ∃ s, (pyarray.bound_to self py).strides.get T.sizeof i = some s ∧
          (pyarray.bound_to self py).strides.get T.sizeof (i + 1) = some (s * d))) := by
  have hN := T.sizeof_pos
  have hweak : ∀ x : Nat, T.sizeof * x < 2 ^ w → x < 2 ^ w := by
    intro x hx
    have : x ≤ T.sizeof * x := Nat.le_mul_of_pos_left _ hN
    omega
  have hlen : (fill_default_strides w S L).length = S.length := by
    cases L with
    | row_major => exact row_major_length w S
    | column_major => exact column_major_length w S 1
  have hclosed : ∀ i, i < S.length → ∃ v, (fill_default_strides w S L)[i]? = some v ∧
      T.sizeof * v < 2 ^ w ∧
      (L = layout.row_major → v = (S.drop (i + 1)).prod) ∧
      (L = layout.column_major → v = (S.take i).prod) := by
    intro i hi
    cases L with
    | row_major =>
      refine ⟨_, row_major_closed_form w S (fun k hk => hweak _ (hrow rfl k hk)) i hi,
        hrow rfl i hi, fun _ => rfl, fun h => absurd h (by decide)⟩
    | column_major =>
      have h := column_major_closed_form w S 1
        (fun k hk => by rw [Nat.one_mul]; exact hweak _ (hcol rfl k hk)) i hi
      rw [Nat.one_mul] at h
      exact ⟨_, h, hcol rfl i hi, fun h => absurd h (by decide), fun _ => rfl⟩
  have hbound : ∀ v ∈ fill_default_strides w S L, T.sizeof * v < 2 ^ w := by
    intro v hv
    obtain ⟨i, hi⟩ := List.mem_iff_getElem?.mp hv
    have hil : i < S.length := by
      rw [← hlen]
      by_contra hcon
      rw [List.getElem?_eq_none (by omega)] at hi
      cases hi
    obtain ⟨v2, h1, h2, _⟩ := hclosed i hil
    rw [hi] at h1
    cases h1
    exact h2
  have hget : ∀ i, i < S.length →
      (pyarray.bound_to self py).strides.get T.sizeof i = (fill_default_strides w S L)[i]? := by
    intro i hi
    simp only [pyarray.strides, pyarray.strides_impl, pyarray.bound_to, hstr, hnd]
    exact byte_stride_div_cancel w T.sizeof S.length _ i hN hbound hi
  refine ⟨hnd, ?_, ?_, ?_⟩
  · intro i hi
    simp [pyarray.shape, pyarray.shape_impl, pyarray.bound_to, pybuffer_adaptor.get, hnd,
      hdims, hi]
  · intro hL
    constructor
    · intro i hi
      obtain ⟨v, h1, _, h3, _⟩ := hclosed i (by omega)
      rw [hget i (by omega), h1, h3 hL, hi, List.drop_length]
      rfl
    · intro i d hi hd
      obtain ⟨v1, h1, _, h3, _⟩ := hclosed (i + 1) hi
      obtain ⟨v0, h0, _, h4, _⟩ := hclosed i (by omega)
      refine ⟨v1, by rw [hget (i + 1) hi]; exact h1, ?_⟩
      rw [hget i (by omega), h0, h4 hL, h3 hL, prod_drop_step S (i + 1) d hd]
  · intro hL
    constructor
    · intro h0
      obtain ⟨v, h1, _, _, h3⟩ := hclosed 0 h0
      rw [hget 0 h0, h1, h3 hL]
      rfl
    · intro i d hi hd
      obtain ⟨v1, h1, _, _, h3⟩ := hclosed (i + 1) hi
      obtain ⟨v0, h0, _, _, h4⟩ := hclosed i (by omega)
      refine ⟨v0, by rw [hget i (by omega)]; exact h0, ?_⟩
      rw [hget (i + 1) hi, h1, h3 hL, h4 hL, prod_take_step S i d hd]

/-- The allocator `numpy_like_alloc` keeps the contract of `PyArray_New`. -/
theorem numpy_like_alloc_contract : PyArray_New_contract 64 numpy_like_alloc := by
  intro r py h
  simp only [numpy_like_alloc] at h
  split at h
  · next hfit =>
    simp only [Option.some.injEq] at h
    subst h
    exact ⟨rfl, rfl, rfl, hfit⟩
  · cases h

/-- C3. For every shape `S` and every layout `L`, whenever `PyArray_New` (any
allocator that returns arrays carrying the request and refuses requests that do
not fit in the address space) returns an array for the request of
`pyarray(shape, layout)`, the container is built, reads back shape `S`, and
its element strides satisfy the default recurrence: row-major
`stride[n-1] = 1` and `stride[i] = stride[i+1] * S[i+1]`; column-major
`stride[0] = 1` and `stride[i+1] = stride[i] * S[i]`. -/
theorem default_strides_recurrence {α : Type} (w : Nat) (T : ElemType)
    (PyArray_New : Allocator α) (self : Nat) (S : List Nat) (L : layout)
    (py : PyArrayObject α)
    (hnumpy : PyArray_New_contract w PyArray_New)
    (halloc : PyArray_New (init_array_call w T S (fill_default_strides w S L)) = some py) :
    ∃ c, pyarray.ctor_shape_layout w T PyArray_New self S L = Except.ok c ∧
      c.shape.m_size = S.length ∧
      (∀ i, i < S.length → c.shape.get i = S[i]?) ∧
      (L = layout.row_major →
        (∀ i, i + 1 = S.length → c.strides.get T.sizeof i = some 1) ∧
        (∀ i d, i + 1 < S.length → S[i + 1]? = some d →
          ∃ s, c.strides.get T.sizeof (i + 1) = some s ∧
            c.strides.get T.sizeof i = some (s * d))) ∧
      (L = layout.column_major →
        (0 < S.length → c.strides.get T.sizeof 0 = some 1) ∧
        (∀ i d, i + 1 < S.length → S[i]? = some d →
          ∃ s, c.strides.get T.sizeof i = some s ∧
            c.strides.get T.sizeof (i + 1) = some (s * d))) := by
  obtain ⟨hnd, hdims, hstr, hfit⟩ := hnumpy _ py halloc
  have hnd1 : py.nd = S.length := hnd
  have hdims1 : py.dimensions = S := hdims
  have hstr1 : py.strides
      = (fill_default_strides w S L).map (fun v => (T.sizeof * v) % 2 ^ w) := hstr
  have hfit1 : T.sizeof * nonzero_product S < 2 ^ w := hfit
  have hrow : L = layout.row_major →
      ∀ i, i < S.length → T.sizeof * (S.drop (i + 1)).prod < 2 ^ w := by
    intro _ i _
    have := Nat.mul_le_mul_left T.sizeof (prod_drop_le_nonzero_product S (i + 1))
    omega
  have hcol : L = layout.column_major →
      ∀ i, i < S.length → T.sizeof * (S.take i).prod < 2 ^ w := by
    intro _ i _
    have := Nat.mul_le_mul_left T.sizeof (prod_take_le_nonzero_product S i)
    omega
  refine ⟨pyarray.bound_to self py, ?_,
    default_strides_when_fit w T self S L py hrow hcol hnd1 hdims1 hstr1⟩
  simp only [pyarray.ctor_shape_layout]
  rw [init_array_ok w T PyArray_New self _ S _ py halloc]
  rfl

/-- C3 on scenario 2 of the spec: shape `(3, 4)` of doubles, row-major, with an
allocator that refuses what does not fit in 64 bits. -/
theorem default_strides_recurrence_witness :
    ∃ c, pyarray.ctor_shape_layout 64 T_double numpy_like_alloc 0 [3, 4] layout.row_major
        = Except.ok c ∧
      c.shape.m_size = [3, 4].length ∧
      (∀ i, i < [3, 4].length → c.shape.get i = [3, 4][i]?) ∧
      (layout.row_major = layout.row_major →
        (∀ i, i + 1 = [3, 4].length → c.strides.get T_double.sizeof i = some 1) ∧
        (∀ i d, i + 1 < [3, 4].length → [3, 4][i + 1]? = some d →
          ∃ s, c.strides.get T_double.sizeof (i + 1) = some s ∧
            c.strides.get T_double.sizeof i = some (s * d))) ∧
      (layout.row_major = layout.column_major →
        (0 < [3, 4].length → c.strides.get T_double.sizeof 0 = some 1) ∧
        (∀ i d, i + 1 < [3, 4].length → [3, 4][i]? = some d →
          ∃ s, c.strides.get T_double.sizeof i = some s ∧
            c.strides.get T_double.sizeof (i + 1) = some (s * d))) :=
  default_strides_recurrence 64 T_double numpy_like_alloc 0 [3, 4] layout.row_major
    { nd := 2, dimensions := [3, 4], strides := [32, 8], data := List.replicate 12 0,
      size := 12 }
    numpy_like_alloc_contract rfl

/-- A request that does not fit evaluated: for doubles and the extents
`(0, 2 ^ 61)` the allocator returns null and the constructor ends by the
runtime error, so no container exists. -/
theorem oversized_request_refused :
    numpy_like_alloc (init_array_call 64 T_double [0, 2305843009213693952]
      (fill_default_strides 64 [0, 2305843009213693952] layout.row_major)) = none ∧
    pyarray.ctor_shape_layout 64 T_double numpy_like_alloc 0 [0, 2305843009213693952]
        layout.row_major
      = Except.error (Fault.runtime_error "NumPy: unable to create ndarray") :=
  ⟨rfl, rfl⟩

/-- Scenario 2 of the spec evaluated: shape `(3, 4)` gives the element strides
`(4, 1)` row-major and `(1, 3)` column-major. -/
theorem scenario_three_by_four :
    (∃ c, pyarray.ctor_shape_layout 64 T_double granting_alloc 0 [3, 4] layout.row_major
        = Except.ok c ∧
      c.strides.get T_double.sizeof 0 = some 4 ∧ c.strides.get T_double.sizeof 1 = some 1) ∧
    (∃ c, pyarray.ctor_shape_layout 64 T_double granting_alloc 0 [3, 4] layout.column_major
        = Except.ok c ∧
      c.strides.get T_double.sizeof 0 = some 1 ∧ c.strides.get T_double.sizeof 1 = some 3) :=
  ⟨⟨_, rfl, by decide, by decide⟩, ⟨_, rfl, by decide, by decide⟩⟩

/-- Scenario 3 of the spec evaluated: shape `(1, 5)` row-major gives the element
strides `(5, 1)` and the backstrides `(0, 4)`. -/
theorem scenario_one_by_five :
    pyarray.ctor_shape_layout 64 T_double granting_alloc 0 [1, 5] layout.row_major
      = Except.ok one_by_five ∧
    one_by_five.strides.get T_double.sizeof 0 = some 5 ∧
    one_by_five.strides.get T_double.sizeof 1 = some 1 ∧
    (empty_store.set 0 one_by_five).read_backstride 64 T_double 0 0 = some 0 ∧
    (empty_store.set 0 one_by_five).read_backstride 64 T_double 0 1 = some 4 :=
  ⟨rfl, by decide, by decide, by decide, by decide⟩

/-- The flags evaluated: `double` requests aligned and writable (`0x0500`),
`const double` requests aligned only (`0x0100`). -/
theorem flags_evaluated :
    (init_array_call 64 T_double [3, 4] [4, 1]).flags = 0x0500 ∧
    (init_array_call 64 T_const_double [3, 4] [4, 1]).flags = 0x0100 :=
  ⟨by decide, by decide⟩

/-- A refused allocation evaluated: `init_array` ends by the runtime error and
the container is the one it started from; the constructor produces nothing. -/
theorem refused_allocation_evaluated :
    one_by_five.init_array 64 T_double refusing_alloc 0 [3, 4] [4, 1]
      = (Except.error (Fault.runtime_error "NumPy: unable to create ndarray"), one_by_five) ∧
    pyarray.ctor_shape_layout 64 T_double refusing_alloc 0 [3, 4] layout.row_major
      = Except.error (Fault.runtime_error "NumPy: unable to create ndarray") :=
  ⟨rfl, rfl⟩

end xt
